import Mathlib

/-!
# glow: type mapping and conversion synthesis (`type.go`)

A shallow embedding of `type.go` and the properties of its classifier
(`GoType`, `IsVoid`) and conversion synthesizers (`ConvertGoToC`,
`ConvertCToGo`), followed by models of the name normalizer and of the
blank-line-stripping writer of `util.go`.

Modelling conventions

* A Go `string` is a Lean `String`; `+` and the `%s` verb of `fmt.Sprintf`
  applied to string arguments are concatenation, and a `switch` on a string
  is a `match` on string literals (first matching case, no fall-through into
  the next case; leaving the `switch` without a `return` continues with the
  statements after it).
* `PointerLevel` is a Go `int`, here an `Int`.  No arithmetic is done on it,
  so the machine width plays no role.
* `strings.Repeat` panics on a negative count.  A panic is `none`, a returned
  string `s` is `some s`; every function that calls `pointers()` therefore
  returns an `Option String`.
-/

namespace Glow

/-! ## Embedding of the source -/

/-- Go's `strings.Repeat(s, count)`: `count` copies of `s`, a panic (`none`)
when `count` is negative. -/
def Repeat (s : String) (count : Int) : Option String :=
  if count < 0 then none else some (String.join (List.replicate count.toNat s))

/-- The struct `Type` of `type.go` (`Type` is reserved in Lean). -/
structure TypeDesc where
  /-- Name of the type without modifiers -/
  Name : String
  /-- Number of levels of declared indirection to the type -/
  PointerLevel : Int
  /-- Raw C definition -/
  CDefinition : String
deriving DecidableEq, Repr

/-- The struct `Typedef` of `type.go`. -/
structure Typedef where
  /-- Name of the defined type (or included types) -/
  Name : String
  /-- Raw C definition -/
  CDefinition : String
deriving DecidableEq, Repr

/-- `func (t Type) pointers() string` -/
def TypeDesc.pointers (t : TypeDesc) : Option String :=
  Repeat "*" t.PointerLevel

/-- `func (t Type) IsVoid() bool` -/
def TypeDesc.IsVoid (t : TypeDesc) : Bool :=
  (t.Name == "void" || t.Name == "GLvoid") && t.PointerLevel == 0

/-- `func (t Type) CType() string` -/
def TypeDesc.CType (t : TypeDesc) : String :=
  t.CDefinition

/-- The last statement of `GoType`, reached when the `switch` returns nothing:
`return t.pointers() + "C." + t.Name`. -/
def TypeDesc.foreignRef (t : TypeDesc) : Option String := do
  some ((← t.pointers) ++ "C." ++ t.Name)

/-- `func (t Type) GoType() string` -/
def TypeDesc.GoType (t : TypeDesc) : Option String :=
  match t.Name with
  | "GLbyte" => do some ((← t.pointers) ++ "int8")
  | "GLubyte" => do some ((← t.pointers) ++ "uint8")
  | "GLshort" => do some ((← t.pointers) ++ "int16")
  | "GLushort" => do some ((← t.pointers) ++ "uint16")
  | "GLint" => do some ((← t.pointers) ++ "int32")
  | "GLuint" => do some ((← t.pointers) ++ "uint32")
  | "GLint64" | "GLint64EXT" => do some ((← t.pointers) ++ "int64")
  | "GLuint64" | "GLuint64EXT" => do some ((← t.pointers) ++ "uint64")
  | "GLfloat" | "GLclampf" => do some ((← t.pointers) ++ "float32")
  | "GLdouble" | "GLclampd" => do some ((← t.pointers) ++ "float64")
  | "GLclampx" => do some ((← t.pointers) ++ "int32")
  | "GLsizei" => do some ((← t.pointers) ++ "int32")
  | "GLfixed" => do some ((← t.pointers) ++ "int32")
  | "GLchar" | "GLcharARB" => do some ((← t.pointers) ++ "int8")
  | "GLboolean" => do some ((← t.pointers) ++ "bool")
  | "GLenum" | "GLbitfield" => do some ((← t.pointers) ++ "uint32")
  | "GLhalf" | "GLhalfNV" => do some ((← t.pointers) ++ "uint16")
  | "void" | "GLvoid" =>
    if t.PointerLevel = 1 then some "uintptr"
    else if t.PointerLevel = 2 then some "*uintptr"
    else t.foreignRef
  | "GLintptr" | "GLintptrARB" => do some ((← t.pointers) ++ "int")
  | "GLsizeiptr" | "GLsizeiptrARB" => do some ((← t.pointers) ++ "int")
  | "GLhandleARB" | "GLeglImagesOES" | "GLvdpauSurfaceARB" =>
    do some ((← t.pointers) ++ "uintptr")
  | "GLsync" => do some ((← t.pointers) ++ "unsafe.Pointer")
  | "GLDEBUGPROC" => some "unsafe.Pointer"
  | _ => t.foreignRef

/-- The statements of `ConvertGoToC` after its `switch`:
`if t.PointerLevel >= 1 { return Sprintf("(%sC.%s)(unsafe.Pointer(%s))", ...) }`
`return Sprintf("(%sC.%s)(%s)", ...)`. -/
def TypeDesc.castGoToC (t : TypeDesc) (name : String) : Option String :=
  if t.PointerLevel ≥ 1 then do
    some ("(" ++ (← t.pointers) ++ "C." ++ t.Name ++ ")(unsafe.Pointer(" ++ name ++ "))")
  else do
    some ("(" ++ (← t.pointers) ++ "C." ++ t.Name ++ ")(" ++ name ++ ")")

/-- `func (t Type) ConvertGoToC(name string) string` -/
def TypeDesc.ConvertGoToC (t : TypeDesc) (name : String) : Option String :=
  match t.Name with
  | "GLboolean" =>
    if t.PointerLevel = 0 then some ("(C.GLboolean)(boolToInt(" ++ name ++ "))")
    else t.castGoToC name
  | "void" | "GLvoid" =>
    if t.PointerLevel = 1 then some ("unsafe.Pointer(" ++ name ++ ")")
    else if t.PointerLevel = 2 then
      some ("(*unsafe.Pointer)(unsafe.Pointer(" ++ name ++ "))")
    else t.castGoToC name
  | _ => t.castGoToC name

/-- `func (t Type) ConvertCToGo(name string) string` -/
def TypeDesc.ConvertCToGo (t : TypeDesc) (name : String) : Option String :=
  if t.Name = "GLboolean" then some (name ++ " == TRUE")
  else do some ("(" ++ (← t.GoType) ++ ")(" ++ name ++ ")")

/-! ## Vocabulary of the specification -/

/-- The text made of `d` copies of the character `*`. -/
def stars (d : Nat) : String := String.mk (List.replicate d '*')

/-- The documented scalar lookup table: native name and Go primitive. -/
def documentedScalars : List (String × String) :=
  [("GLbyte", "int8"), ("GLubyte", "uint8"), ("GLshort", "int16"),
   ("GLushort", "uint16"), ("GLint", "int32"), ("GLuint", "uint32"),
   ("GLint64", "int64"), ("GLint64EXT", "int64"),
   ("GLuint64", "uint64"), ("GLuint64EXT", "uint64"),
   ("GLfloat", "float32"), ("GLclampf", "float32"),
   ("GLdouble", "float64"), ("GLclampd", "float64"),
   ("GLclampx", "int32"), ("GLsizei", "int32"), ("GLfixed", "int32"),
   ("GLchar", "int8"), ("GLcharARB", "int8"),
   ("GLboolean", "bool"),
   ("GLenum", "uint32"), ("GLbitfield", "uint32"),
   ("GLintptr", "int"), ("GLintptrARB", "int"),
   ("GLsizeiptr", "int"), ("GLsizeiptrARB", "int"),
   ("GLhandleARB", "uintptr"), ("GLeglImagesOES", "uintptr"),
   ("GLvdpauSurfaceARB", "uintptr"),
   ("GLsync", "unsafe.Pointer"),
   ("GLhalf", "uint16"), ("GLhalfNV", "uint16")]

/-- Every name that labels a case of `GoType`'s `switch`, in source order. -/
def recognizedNames : List String :=
  ["GLbyte", "GLubyte", "GLshort", "GLushort", "GLint", "GLuint",
   "GLint64", "GLint64EXT", "GLuint64", "GLuint64EXT",
   "GLfloat", "GLclampf", "GLdouble", "GLclampd",
   "GLclampx", "GLsizei", "GLfixed", "GLchar", "GLcharARB",
   "GLboolean", "GLenum", "GLbitfield", "GLhalf", "GLhalfNV",
   "void", "GLvoid",
   "GLintptr", "GLintptrARB", "GLsizeiptr", "GLsizeiptrARB",
   "GLhandleARB", "GLeglImagesOES", "GLvdpauSurfaceARB",
   "GLsync", "GLDEBUGPROC"]

/-! ## `util.go`: name normalizer and blank-line-stripping writer

`util.go` is not among the sources; only its test file `util_test.go` is.  The
two components are modelled from the specification (sections 4.3 and 4.4) and
from the test tables of `util_test.go`.  A Go `[]byte` is a `List UInt8`; the
newline byte is `10`. -/

/-- Go's `strings.HasPrefix(s, p)`. -/
def HasPrefix (s p : String) : Bool := p.data.isPrefixOf s.data

/-- The text begins with an upper-case letter `A`..`Z`. -/
def beginsUpper (s : String) : Bool :=
  match s.data with
  | [] => false
  | ch :: _ => ch.isUpper

/-- The text begins with a decimal digit. -/
def beginsDigit (s : String) : Bool :=
  match s.data with
  | [] => false
  | ch :: _ => ch.isDigit

/-- Modelled from the spec: the guard of a function-style prefix of
`TrimAPIPrefix` (`util.go`, absent): the prefix is stripped "only when the
remaining suffix still begins with an uppercase letter (for function-style
names)". -/
def functionGuard (rest : String) : Bool := beginsUpper rest

/-- Modelled from the spec: the guard of a constant-style prefix of
`TrimAPIPrefix` (`util.go`, absent), the digit guard: "a name beginning with
the prefix immediately followed by a digit must NOT be trimmed". -/
def constantGuard (rest : String) : Bool := !beginsDigit rest

/-- Modelled from the spec: the "ordered list of (prefix, guard-predicate)
pairs" of `TrimAPIPrefix` (`util.go`, absent).  The prefixes are those of
`trimAPIPrefixTests`; `glX` stands before `gl` because the first matching
prefix wins and the test table expects `glXTest` to become `Test`. -/
def apiPrefixes : List (String × (String → Bool)) :=
  [("glX", functionGuard), ("wgl", functionGuard), ("egl", functionGuard),
   ("gl", functionGuard),
   ("GLX_", constantGuard), ("WGL_", constantGuard), ("EGL_", constantGuard),
   ("GL_", constantGuard)]

/-- Modelled from the spec: `func TrimAPIPrefix(name string) string` of
`util.go`, which is absent (only `TestTrimApiPrefix` is among the sources).
"Exactly one prefix match is attempted per call; first matching literal prefix
(checked in the configured order) wins; no prefix match returns the input
unchanged"; the matched prefix is stripped only when its guard accepts the
remaining suffix. -/
def TrimAPIPrefix (name : String) : String :=
  match apiPrefixes.find? (fun pg => HasPrefix name pg.1) with
  | none => name
  | some pg =>
    let rest := String.mk (name.data.drop pg.1.data.length)
    if pg.2 rest then rest else name

/-- Modelled from the spec: the type `BlankLineStrippingWriter` of `util.go`,
which is absent (only its tests are among the sources).  `output` is the
wrapped sink, as the bytes it has received so far (the tests wrap an in-memory
`bytes.Buffer`, whose writes do not fail); `buf` is the carry state, the bytes
of the line whose terminator has not arrived yet, kept from one `Write` call
to the next.  The test table `BlankLineTests` ("The string needs a new line at
the end.") expects no output for content without a terminator, so such bytes
are carried, not forwarded. -/
structure BlankLineStrippingWriter where
  /-- The bytes the wrapped sink has received -/
  output : List UInt8
  /-- The bytes of the current line, still without its terminator -/
  buf : List UInt8
deriving DecidableEq, Repr

/-- Modelled from the spec: `NewBlankLineStrippingWriter(wrapped)` of `util.go`
(absent): a writer with empty carry state around the sink `wrapped`. -/
def NewBlankLineStrippingWriter (wrapped : List UInt8) : BlankLineStrippingWriter :=
  ⟨wrapped, []⟩

/-- Modelled from the spec: one step of the line scan of the writer of
`util.go` (absent); during a scan `buf` holds the line read so far.  A newline
ends the line: a blank (empty) line is dropped, a non-blank line is forwarded
to the sink followed by one newline.  Any other byte joins the line. -/
def BlankLineStrippingWriter.writeByte (w : BlankLineStrippingWriter) (b : UInt8) :
    BlankLineStrippingWriter :=
  if b = 10 then
    if w.buf = [] then ⟨w.output, []⟩ else ⟨w.output ++ w.buf ++ [10], []⟩
  else ⟨w.output, w.buf ++ [b]⟩

/-- Modelled from the spec: `func (w *BlankLineStrippingWriter) Write(p []byte)
(int, error)` of `util.go` (absent): the chunk `p` is appended to the carried
bytes and the whole buffer is scanned for lines from its start; the complete
non-blank lines go to the sink and the unterminated rest is carried to the
next call.  The result is the writer after the call and the byte count
`len(p)`.  The in-memory sink does not fail, so the error is always `nil` and
is left out. -/
def BlankLineStrippingWriter.Write (w : BlankLineStrippingWriter) (p : List UInt8) :
    BlankLineStrippingWriter × Nat :=
  ((w.buf ++ p).foldl BlankLineStrippingWriter.writeByte ⟨w.output, []⟩, p.length)

/-- Successive `Write` calls, one per chunk, in order. -/
def writeChunks (w : BlankLineStrippingWriter) (chunks : List (List UInt8)) :
    BlankLineStrippingWriter :=
  chunks.foldl (fun w p => (w.Write p).1) w

/-- The newline-terminated lines of a byte sequence, without their
terminators: the pieces between newlines, except the piece after the last
newline. -/
def terminatedLines (p : List UInt8) : List (List UInt8) := (p.splitOn 10).dropLast

/-- The non-empty newline-terminated lines of a byte sequence, in order, each
followed by a single newline. -/
def keptLines (p : List UInt8) : List UInt8 :=
  (((terminatedLines p).filter (fun l => l ≠ [])).map (fun l => l ++ [10])).flatten

/-- No two adjacent bytes are both newlines. -/
def NoDoubleNewline (o : List UInt8) : Prop :=
  o.Chain' (fun a b => ¬ (a = 10 ∧ b = 10))

/-- The text ends with exactly one newline: its last byte is a newline and the
byte before it is not. -/
def EndsWithOneNewline (o : List UInt8) : Prop :=
  ∃ o1 y, o = o1 ++ [y, 10] ∧ y ≠ 10

/-- The invariant of the writer: the pending line holds no newline, and the
bytes sent to the sink so far form complete non-blank lines. -/
structure BlankLineStrippingWriter.Inv (w : BlankLineStrippingWriter) : Prop where
  /-- The pending line holds no newline -/
  buf_clean : ∀ x ∈ w.buf, x ≠ 10
  /-- The sink does not start with a newline -/
  head_ok : w.output.head? ≠ some 10
  /-- The sink holds no two adjacent newlines -/
  no_double : NoDoubleNewline w.output
  /-- The sink is empty or ends with exactly one newline -/
  tail_ok : w.output = [] ∨ EndsWithOneNewline w.output

/-! ## Auxiliary lemmas -/

theorem foldl_append_data (l : List String) (acc : String) :
    (l.foldl (fun r s => r ++ s) acc).data = acc.data ++ (l.map String.data).flatten := by
  induction l generalizing acc with
  | nil => simp
  | cons x xs ih => simp [ih, List.append_assoc]

theorem flatten_replicate_star (d : Nat) :
    ((List.replicate d "*").map String.data).flatten = List.replicate d '*' := by
  induction d with
  | zero => rfl
  | succ k ih =>
    simp only [List.replicate_succ, List.map_cons, List.flatten_cons, ih]
    rfl

theorem join_replicate_star (d : Nat) : String.join (List.replicate d "*") = stars d := by
  apply String.ext
  unfold String.join stars
  rw [foldl_append_data, flatten_replicate_star]
  rfl

/-- On a natural count `strings.Repeat("*", d)` returns `d` stars. -/
theorem Repeat_star (d : Nat) : Repeat "*" (d : Int) = some (stars d) := by
  unfold Repeat
  have h : ¬ ((d : Int) < 0) := by omega
  rw [if_neg h, Int.toNat_natCast, join_replicate_star]

theorem pointers_natCast (n : String) (d : Nat) (c : String) :
    TypeDesc.pointers ⟨n, (d : Int), c⟩ = some (stars d) := by
  simp [TypeDesc.pointers, Repeat_star]

theorem foreignRef_natCast (n : String) (d : Nat) (c : String) :
    TypeDesc.foreignRef ⟨n, (d : Int), c⟩ = some (stars d ++ "C." ++ n) := by
  simp [TypeDesc.foreignRef, pointers_natCast]

theorem bind_pointers (n : String) (d : Nat) (c g : String) :
    (do some ((← TypeDesc.pointers ⟨n, (d : Int), c⟩) ++ g) : Option String)
      = some (stars d ++ g) := by
  simp [pointers_natCast]

theorem stars_zero_append (g : String) : stars 0 ++ g = g := by
  apply String.ext
  simp [stars]

/-- `GoType` on the scalar table, at every natural depth. -/
theorem GoType_scalar (n g : String) (h : (n, g) ∈ documentedScalars)
    (d : Nat) (c : String) :
    TypeDesc.GoType ⟨n, (d : Int), c⟩ = some (stars d ++ g) := by
  simp only [documentedScalars, List.mem_cons, Prod.mk.injEq, List.mem_singleton,
    List.not_mem_nil, or_false] at h
  rcases h with h | h | h | h | h | h | h | h | h | h | h | h | h | h | h | h | h | h | h | h
    | h | h | h | h | h | h | h | h | h | h | h | h <;>
  · obtain ⟨rfl, rfl⟩ := h
    exact bind_pointers _ d c _

/-- `GoType` returns (does not panic) at every natural depth. -/
theorem GoType_total (n : String) (d : Nat) (c : String) :
    ∃ g, TypeDesc.GoType ⟨n, (d : Int), c⟩ = some g := by
  unfold TypeDesc.GoType
  split
  case h_25 | h_26 =>
    simp only [foreignRef_natCast]
    split
    · exact ⟨_, rfl⟩
    · split <;> exact ⟨_, rfl⟩
  all_goals first
    | exact ⟨_, bind_pointers _ d c _⟩
    | exact ⟨_, foreignRef_natCast _ d c⟩
    | exact ⟨_, rfl⟩

theorem recognized_scalar :
    ∀ n ∈ recognizedNames, n ≠ "void" → n ≠ "GLvoid" → n ≠ "GLDEBUGPROC" →
      ∃ p ∈ documentedScalars, p.1 = n := by
  decide

theorem castGoToC_natCast (n : String) (d : Nat) (c v : String) :
    TypeDesc.castGoToC ⟨n, (d : Int), c⟩ v =
      if 1 ≤ d then some ("(" ++ stars d ++ "C." ++ n ++ ")(unsafe.Pointer(" ++ v ++ "))")
      else some ("(" ++ stars d ++ "C." ++ n ++ ")(" ++ v ++ ")") := by
  unfold TypeDesc.castGoToC
  by_cases h : 1 ≤ d
  · have h2 : ((d : Int) ≥ 1) := by omega
    simp [h, h2, pointers_natCast]
  · have h2 : ¬ ((d : Int) ≥ 1) := by omega
    simp [h, h2, pointers_natCast]

/-! ## The classifier: `GoType` and `IsVoid` -/

/-- C1: for every pointer depth `d ≥ 0` and every raw declaration, `GoType` of
a descriptor whose name is in the documented scalar table returns `d` copies
of `*` followed by the documented Go primitive (the 16-bit float names map to
`uint16`). -/
theorem C1_GoType_scalar_table (n g : String) (h : (n, g) ∈ documentedScalars)
    (d : Nat) (c : String) :
    TypeDesc.GoType ⟨n, (d : Int), c⟩ = some (stars d ++ g) :=
  GoType_scalar n g h d c

theorem C1_GoType_scalar_table_witness :
    ("GLhalfNV", "uint16") ∈ documentedScalars ∧
    TypeDesc.GoType ⟨"GLhalfNV", ((2 : Nat) : Int), "GLhalfNV **"⟩
      = some (stars 2 ++ "uint16") :=
  ⟨by decide, C1_GoType_scalar_table "GLhalfNV" "uint16" (by decide) 2 "GLhalfNV **"⟩

/-- C2: for a descriptor named `void` or `GLvoid`, `GoType` returns exactly
`uintptr` at pointer depth 1 and exactly `*uintptr` at pointer depth 2,
whatever the raw declaration is. -/
theorem C2_GoType_void_pointer (n : String) (h : n = "void" ∨ n = "GLvoid") (c : String) :
    TypeDesc.GoType ⟨n, 1, c⟩ = some "uintptr" ∧
    TypeDesc.GoType ⟨n, 2, c⟩ = some "*uintptr" := by
  rcases h with rfl | rfl <;> exact ⟨rfl, rfl⟩

theorem C2_GoType_void_pointer_witness :
    ("GLvoid" = "void" ∨ "GLvoid" = "GLvoid") ∧
    TypeDesc.GoType ⟨"GLvoid", 1, "const GLvoid *"⟩ = some "uintptr" ∧
    TypeDesc.GoType ⟨"GLvoid", 2, "const GLvoid *"⟩ = some "*uintptr" :=
  ⟨Or.inr rfl, C2_GoType_void_pointer "GLvoid" (Or.inr rfl) "const GLvoid *"⟩

/-- C3 (as stated, refuted): `GLDEBUGPROC` is a name of `GoType`'s switch other
than `void`/`GLvoid`, yet at depth 1 `GoType` returns `unsafe.Pointer`, the
same text as at depth 0, not one `*` followed by it. -/
theorem C3_counterexample :
    "GLDEBUGPROC" ∈ recognizedNames ∧
    TypeDesc.GoType ⟨"GLDEBUGPROC", 0, "GLDEBUGPROC"⟩ = some "unsafe.Pointer" ∧
    TypeDesc.GoType ⟨"GLDEBUGPROC", 1, "GLDEBUGPROC *"⟩ = some "unsafe.Pointer" ∧
    TypeDesc.GoType ⟨"GLDEBUGPROC", 1, "GLDEBUGPROC *"⟩
      ≠ some (stars 1 ++ "unsafe.Pointer") := by
  decide

/-- C3 (amended): for every name of `GoType`'s switch other than `void` and
`GLvoid` and every depth `d` (so every `d ≥ 1`), `GoType` at depth `d` is `d`
copies of `*` followed by `GoType` of the same name at depth 0, except for
`GLDEBUGPROC`, whose `GoType` is the depth-0 text (`unsafe.Pointer`) at every
depth. -/
theorem C3_pointer_depth_composes (n : String) (hn : n ∈ recognizedNames)
    (hv : n ≠ "void") (hg : n ≠ "GLvoid") (d : Nat) (c : String) :
    ∃ g0, TypeDesc.GoType ⟨n, 0, c⟩ = some g0 ∧
      TypeDesc.GoType ⟨n, (d : Int), c⟩
        = some (if n = "GLDEBUGPROC" then g0 else stars d ++ g0) := by
  by_cases hp : n = "GLDEBUGPROC"
  · subst hp
    exact ⟨"unsafe.Pointer", rfl, rfl⟩
  · obtain ⟨⟨m, g⟩, hmem, hm⟩ := recognized_scalar n hn hv hg hp
    simp only at hm
    subst hm
    refine ⟨g, ?_, ?_⟩
    · have h0 := GoType_scalar m g hmem 0 c
      rw [stars_zero_append] at h0
      exact h0
    · rw [if_neg hp]
      exact GoType_scalar m g hmem d c

theorem C3_pointer_depth_composes_witness :
    "GLsync" ∈ recognizedNames ∧ "GLsync" ≠ "void" ∧ "GLsync" ≠ "GLvoid" ∧
    ∃ g0, TypeDesc.GoType ⟨"GLsync", 0, "GLsync ***"⟩ = some g0 ∧
      TypeDesc.GoType ⟨"GLsync", ((3 : Nat) : Int), "GLsync ***"⟩
        = some (if "GLsync" = "GLDEBUGPROC" then g0 else stars 3 ++ g0) :=
  ⟨by decide, by decide, by decide,
    C3_pointer_depth_composes "GLsync" (by decide) (by decide) (by decide) 3 "GLsync ***"⟩

/-- C4: `IsVoid` returns true exactly when the name is `void` or `GLvoid` and
the pointer depth is 0; for every other descriptor it returns false. -/
theorem C4_IsVoid_iff (t : TypeDesc) :
    t.IsVoid = true ↔ (t.Name = "void" ∨ t.Name = "GLvoid") ∧ t.PointerLevel = 0 := by
  simp [TypeDesc.IsVoid]

/-- C5: for every descriptor whose name is none of the names of the
classifier's table and every depth `d ≥ 0`, `GoType` is exactly `d` copies of
`*` followed by `C.` followed by the name unchanged. -/
theorem C5_GoType_unmapped (n : String) (h : n ∉ recognizedNames) (d : Nat) (c : String) :
    TypeDesc.GoType ⟨n, (d : Int), c⟩ = some (stars d ++ "C." ++ n) := by
  unfold TypeDesc.GoType
  split
  case h_36 => exact foreignRef_natCast n d c
  all_goals
    rename_i hq
    simp only at hq
    subst hq
    exact absurd (by decide) h

theorem C5_GoType_unmapped_witness :
    "GLDEBUGPROCARB" ∉ recognizedNames ∧
    TypeDesc.GoType ⟨"GLDEBUGPROCARB", ((2 : Nat) : Int), "GLDEBUGPROCARB **"⟩
      = some (stars 2 ++ "C." ++ "GLDEBUGPROCARB") :=
  ⟨by decide, C5_GoType_unmapped "GLDEBUGPROCARB" (by decide) 2 "GLDEBUGPROCARB **"⟩

/-! ## The conversion synthesizers -/

/-- C6: for the boolean descriptor (`GLboolean`, depth 0) and every variable
name `v`, `ConvertGoToC` returns `(C.GLboolean)(boolToInt(v))` and
`ConvertCToGo` returns `v == TRUE`. -/
theorem C6_boolean_conversions (c v : String) :
    TypeDesc.ConvertGoToC ⟨"GLboolean", 0, c⟩ v
      = some ("(C.GLboolean)(boolToInt(" ++ v ++ "))") ∧
    TypeDesc.ConvertCToGo ⟨"GLboolean", 0, c⟩ v = some (v ++ " == TRUE") :=
  ⟨rfl, rfl⟩

/-- C7: for a descriptor named `void` or `GLvoid` and every variable name `v`,
`ConvertGoToC` returns `unsafe.Pointer(v)` at depth 1 and
`(*unsafe.Pointer)(unsafe.Pointer(v))` at depth 2; neither is the cast to
`C.void` / `C.GLvoid` that the generic path would render. -/
theorem C7_void_pointer_GoToC (n : String) (h : n = "void" ∨ n = "GLvoid") (c v : String) :
    TypeDesc.ConvertGoToC ⟨n, 1, c⟩ v = some ("unsafe.Pointer(" ++ v ++ ")") ∧
    TypeDesc.ConvertGoToC ⟨n, 2, c⟩ v
      = some ("(*unsafe.Pointer)(unsafe.Pointer(" ++ v ++ "))") ∧
    TypeDesc.ConvertGoToC ⟨n, 1, c⟩ v
      ≠ some ("(" ++ stars 1 ++ "C." ++ n ++ ")(unsafe.Pointer(" ++ v ++ "))") ∧
    TypeDesc.ConvertGoToC ⟨n, 2, c⟩ v
      ≠ some ("(" ++ stars 2 ++ "C." ++ n ++ ")(unsafe.Pointer(" ++ v ++ "))") := by
  have h1 : TypeDesc.ConvertGoToC ⟨n, 1, c⟩ v = some ("unsafe.Pointer(" ++ v ++ ")") := by
    rcases h with rfl | rfl <;> rfl
  have h2 : TypeDesc.ConvertGoToC ⟨n, 2, c⟩ v
      = some ("(*unsafe.Pointer)(unsafe.Pointer(" ++ v ++ "))") := by
    rcases h with rfl | rfl <;> rfl
  refine ⟨h1, h2, ?_, ?_⟩
  · rw [h1]
    intro he
    have hd := congrArg String.data (Option.some.inj he)
    simp [stars] at hd
  · rw [h2]
    intro he
    have hd := congrArg String.data (Option.some.inj he)
    simp [stars] at hd

theorem C7_void_pointer_GoToC_witness :
    ("void" = "void" ∨ "void" = "GLvoid") ∧
    TypeDesc.ConvertGoToC ⟨"void", 1, "const void *"⟩ "data"
      = some ("unsafe.Pointer(" ++ "data" ++ ")") ∧
    TypeDesc.ConvertGoToC ⟨"void", 2, "const void *"⟩ "data"
      = some ("(*unsafe.Pointer)(unsafe.Pointer(" ++ "data" ++ "))") ∧
    TypeDesc.ConvertGoToC ⟨"void", 1, "const void *"⟩ "data"
      ≠ some ("(" ++ stars 1 ++ "C." ++ "void" ++ ")(unsafe.Pointer(" ++ "data" ++ "))") ∧
    TypeDesc.ConvertGoToC ⟨"void", 2, "const void *"⟩ "data"
      ≠ some ("(" ++ stars 2 ++ "C." ++ "void" ++ ")(unsafe.Pointer(" ++ "data" ++ "))") :=
  ⟨Or.inl rfl, C7_void_pointer_GoToC "void" (Or.inl rfl) "const void *" "data"⟩

/-- C8: for every descriptor that is neither `GLboolean` at depth 0 nor
`void`/`GLvoid` at depth 1 or 2 (unmapped names included) and every variable
name `v`, `ConvertGoToC` is a direct cast to the native type: `(C.name)(v)` at
depth 0 and `(` `d` stars `C.name)(unsafe.Pointer(v))` at depth `d ≥ 1`. -/
theorem C8_generic_GoToC (n : String) (d : Nat) (c v : String)
    (hb : ¬ (n = "GLboolean" ∧ d = 0))
    (hv : ¬ ((n = "void" ∨ n = "GLvoid") ∧ (d = 1 ∨ d = 2))) :
    (d = 0 → TypeDesc.ConvertGoToC ⟨n, (d : Int), c⟩ v
      = some ("(C." ++ n ++ ")(" ++ v ++ ")")) ∧
    (1 ≤ d → TypeDesc.ConvertGoToC ⟨n, (d : Int), c⟩ v
      = some ("(" ++ stars d ++ "C." ++ n ++ ")(unsafe.Pointer(" ++ v ++ "))")) := by
  have hgen : TypeDesc.ConvertGoToC ⟨n, (d : Int), c⟩ v
      = TypeDesc.castGoToC ⟨n, (d : Int), c⟩ v := by
    unfold TypeDesc.ConvertGoToC
    split
    · rename_i hq
      simp only at hq
      have hd0 : ¬ ((d : Int) = 0) := by
        intro h0
        exact hb ⟨hq, by exact_mod_cast h0⟩
      simp only [hd0, if_false]
    · rename_i hq
      simp only at hq
      have h1 : ¬ ((d : Int) = 1) := by
        intro h0
        exact hv ⟨Or.inl hq, Or.inl (by exact_mod_cast h0)⟩
      have h2 : ¬ ((d : Int) = 2) := by
        intro h0
        exact hv ⟨Or.inl hq, Or.inr (by exact_mod_cast h0)⟩
      simp only [h1, h2, if_false]
    · rename_i hq
      simp only at hq
      have h1 : ¬ ((d : Int) = 1) := by
        intro h0
        exact hv ⟨Or.inr hq, Or.inl (by exact_mod_cast h0)⟩
      have h2 : ¬ ((d : Int) = 2) := by
        intro h0
        exact hv ⟨Or.inr hq, Or.inr (by exact_mod_cast h0)⟩
      simp only [h1, h2, if_false]
    · rfl
  rw [hgen, castGoToC_natCast]
  constructor
  · intro h0
    subst h0
    rw [if_neg (by decide)]
    rfl
  · intro h1
    rw [if_pos h1]

theorem C8_generic_GoToC_witness :
    ¬ ("GLfoo" = "GLboolean" ∧ 2 = 0) ∧
    ¬ (("GLfoo" = "void" ∨ "GLfoo" = "GLvoid") ∧ (2 = 1 ∨ 2 = 2)) ∧
    (2 = 0 → TypeDesc.ConvertGoToC ⟨"GLfoo", ((2 : Nat) : Int), "GLfoo **"⟩ "x"
      = some ("(C." ++ "GLfoo" ++ ")(" ++ "x" ++ ")")) ∧
    (1 ≤ 2 → TypeDesc.ConvertGoToC ⟨"GLfoo", ((2 : Nat) : Int), "GLfoo **"⟩ "x"
      = some ("(" ++ stars 2 ++ "C." ++ "GLfoo" ++ ")(unsafe.Pointer(" ++ "x" ++ "))")) :=
  ⟨by decide, by decide,
    C8_generic_GoToC "GLfoo" 2 "GLfoo **" "x" (by decide) (by decide)⟩

/-- C9: for every descriptor at depth 0 whose name is not `GLboolean` and
every variable name `v`, `ConvertCToGo` is a value cast to the classified Go
type: `GoType` returns a text `g` and `ConvertCToGo` returns `(g)(v)`. -/
theorem C9_value_cast_CToGo (n : String) (hn : n ≠ "GLboolean") (c v : String) :
    ∃ g, TypeDesc.GoType ⟨n, 0, c⟩ = some g ∧
      TypeDesc.ConvertCToGo ⟨n, 0, c⟩ v = some ("(" ++ g ++ ")(" ++ v ++ ")") := by
  obtain ⟨g, hg⟩ := GoType_total n 0 c
  refine ⟨g, hg, ?_⟩
  unfold TypeDesc.ConvertCToGo
  rw [if_neg hn]
  have hg2 : TypeDesc.GoType ⟨n, 0, c⟩ = some g := hg
  rw [hg2]
  rfl

theorem C9_value_cast_CToGo_witness :
    "GLuint" ≠ "GLboolean" ∧
    ∃ g, TypeDesc.GoType ⟨"GLuint", 0, "GLuint"⟩ = some g ∧
      TypeDesc.ConvertCToGo ⟨"GLuint", 0, "GLuint"⟩ "ret"
        = some ("(" ++ g ++ ")(" ++ "ret" ++ ")") :=
  ⟨by decide, C9_value_cast_CToGo "GLuint" (by decide) "GLuint" "ret"⟩

/-- C10 (as stated, refuted): for `GLint` at depth 1 and the variable `x`,
`GoType` is `*int32` and `ConvertCToGo` returns `(*int32)(x)`: the operand is
the variable itself, not `unsafe.Pointer(x)`. -/
theorem C10_counterexample :
    TypeDesc.GoType ⟨"GLint", 1, "GLint *"⟩ = some "*int32" ∧
    TypeDesc.ConvertCToGo ⟨"GLint", 1, "GLint *"⟩ "x" = some "(*int32)(x)" ∧
    TypeDesc.ConvertCToGo ⟨"GLint", 1, "GLint *"⟩ "x"
      ≠ some ("(" ++ "*int32" ++ ")(unsafe.Pointer(" ++ "x" ++ "))") := by
  decide

/-- C10 (amended): for every descriptor at pointer depth `d ≥ 1` whose name is
none of `void`, `GLvoid`, `GLboolean` and every variable name `v`,
`ConvertCToGo` is a plain cast of the variable itself to `GoType(t)`:
`GoType` returns a text `g` and `ConvertCToGo` returns `(g)(v)`, with no
`unsafe.Pointer` around `v`. -/
theorem C10_pointer_cast_CToGo (n : String) (_hv : n ≠ "void") (_hg : n ≠ "GLvoid")
    (hb : n ≠ "GLboolean") (d : Nat) (_hd : 1 ≤ d) (c v : String) :
    ∃ g, TypeDesc.GoType ⟨n, (d : Int), c⟩ = some g ∧
      TypeDesc.ConvertCToGo ⟨n, (d : Int), c⟩ v = some ("(" ++ g ++ ")(" ++ v ++ ")") := by
  obtain ⟨g, hg⟩ := GoType_total n d c
  refine ⟨g, hg, ?_⟩
  unfold TypeDesc.ConvertCToGo
  rw [if_neg hb, hg]
  rfl

theorem C10_pointer_cast_CToGo_witness :
    "GLubyte" ≠ "void" ∧ "GLubyte" ≠ "GLvoid" ∧ "GLubyte" ≠ "GLboolean" ∧ 1 ≤ 1 ∧
    ∃ g, TypeDesc.GoType ⟨"GLubyte", ((1 : Nat) : Int), "const GLubyte *"⟩ = some g ∧
      TypeDesc.ConvertCToGo ⟨"GLubyte", ((1 : Nat) : Int), "const GLubyte *"⟩ "ret"
        = some ("(" ++ g ++ ")(" ++ "ret" ++ ")") :=
  ⟨by decide, by decide, by decide, by decide,
    C10_pointer_cast_CToGo "GLubyte" (by decide) (by decide) (by decide) 1 (by decide)
      "const GLubyte *" "ret"⟩

theorem ConvertGoToC_natCast (n : String) (d : Nat) (c v : String) :
    TypeDesc.ConvertGoToC ⟨n, (d : Int), c⟩ v =
      if n = "GLboolean" ∧ d = 0 then some ("(C.GLboolean)(boolToInt(" ++ v ++ "))")
      else if (n = "void" ∨ n = "GLvoid") ∧ d = 1 then some ("unsafe.Pointer(" ++ v ++ ")")
      else if (n = "void" ∨ n = "GLvoid") ∧ d = 2 then
        some ("(*unsafe.Pointer)(unsafe.Pointer(" ++ v ++ "))")
      else TypeDesc.castGoToC ⟨n, (d : Int), c⟩ v := by
  unfold TypeDesc.ConvertGoToC
  split
  · rename_i hq
    simp only at hq
    subst hq
    by_cases h0 : d = 0
    · subst h0
      simp
    · have h1 : ¬ ((d : Int) = 0) := by omega
      simp [h0, h1]
  · rename_i hq
    simp only at hq
    subst hq
    by_cases h1 : d = 1
    · subst h1
      simp
    · have h1i : ¬ ((d : Int) = 1) := by omega
      by_cases h2 : d = 2
      · subst h2
        simp
      · have h2i : ¬ ((d : Int) = 2) := by omega
        simp [h1, h2, h1i, h2i]
  · rename_i hq
    simp only at hq
    subst hq
    by_cases h1 : d = 1
    · subst h1
      simp
    · have h1i : ¬ ((d : Int) = 1) := by omega
      by_cases h2 : d = 2
      · subst h2
        simp
      · have h2i : ¬ ((d : Int) = 2) := by omega
        simp [h1, h2, h1i, h2i]
  · rename_i h1 h2 h3
    simp only at h1 h2 h3
    have e1 : ¬ n = "GLboolean" := fun h => h1 h
    have e2 : ¬ n = "void" := fun h => h2 h
    have e3 : ¬ n = "GLvoid" := fun h => h3 h
    simp [e1, e2, e3]

theorem castGoToC_template (n : String) (d : Nat) (c : String) :
    ∃ a b, ∀ v, TypeDesc.castGoToC ⟨n, (d : Int), c⟩ v = some (a ++ v ++ b) := by
  by_cases h : 1 ≤ d
  · exact ⟨"(" ++ stars d ++ "C." ++ n ++ ")(unsafe.Pointer(", "))",
      fun v => by rw [castGoToC_natCast, if_pos h]⟩
  · exact ⟨"(" ++ stars d ++ "C." ++ n ++ ")(", ")",
      fun v => by rw [castGoToC_natCast, if_neg h]⟩

/-- At a natural depth `ConvertGoToC` returns a fixed text around the variable name. -/
theorem ConvertGoToC_template (n : String) (d : Nat) (c : String) :
    ∃ a b, ∀ v, TypeDesc.ConvertGoToC ⟨n, (d : Int), c⟩ v = some (a ++ v ++ b) := by
  by_cases h1 : n = "GLboolean" ∧ d = 0
  · exact ⟨"(C.GLboolean)(boolToInt(", "))", fun v => by rw [ConvertGoToC_natCast, if_pos h1]⟩
  by_cases h2 : (n = "void" ∨ n = "GLvoid") ∧ d = 1
  · exact ⟨"unsafe.Pointer(", ")",
      fun v => by rw [ConvertGoToC_natCast, if_neg h1, if_pos h2]⟩
  by_cases h3 : (n = "void" ∨ n = "GLvoid") ∧ d = 2
  · exact ⟨"(*unsafe.Pointer)(unsafe.Pointer(", "))",
      fun v => by rw [ConvertGoToC_natCast, if_neg h1, if_neg h2, if_pos h3]⟩
  obtain ⟨a, b, hab⟩ := castGoToC_template n d c
  exact ⟨a, b, fun v => by rw [ConvertGoToC_natCast, if_neg h1, if_neg h2, if_neg h3, hab v]⟩

theorem empty_append_string (v : String) : "" ++ v = v := by
  apply String.ext
  simp

/-- At a natural depth `ConvertCToGo` returns a fixed text around the variable name. -/
theorem ConvertCToGo_template (n : String) (d : Nat) (c : String) :
    ∃ a b, ∀ v, TypeDesc.ConvertCToGo ⟨n, (d : Int), c⟩ v = some (a ++ v ++ b) := by
  by_cases hb : n = "GLboolean"
  · refine ⟨"", " == TRUE", fun v => ?_⟩
    unfold TypeDesc.ConvertCToGo
    rw [if_pos hb, empty_append_string]
  · obtain ⟨g, hg⟩ := GoType_total n d c
    refine ⟨"(" ++ g ++ ")(", ")", fun v => ?_⟩
    unfold TypeDesc.ConvertCToGo
    rw [if_neg hb, hg]
    rfl

theorem wrap_inj (a b v1 v2 : String) (h : a ++ v1 ++ b = a ++ v2 ++ b) : v1 = v2 := by
  have hd := congrArg String.data h
  simp only [String.data_append] at hd
  apply String.ext
  exact List.append_cancel_left (List.append_cancel_right hd)

/-- `GoType` on a name that labels no case of the switch, at a natural depth. -/
theorem GoType_foreign (n : String) (h : n ∉ recognizedNames) (d : Nat) (c : String) :
    TypeDesc.GoType ⟨n, (d : Int), c⟩ = some (stars d ++ "C." ++ n) := by
  unfold TypeDesc.GoType
  split
  case h_36 => exact foreignRef_natCast n d c
  all_goals
    rename_i hq
    simp only at hq
    subst hq
    exact absurd (by decide) h

theorem GoType_void_other (n : String) (h : n = "void" ∨ n = "GLvoid") (d : Nat)
    (h1 : d ≠ 1) (h2 : d ≠ 2) (c : String) :
    TypeDesc.GoType ⟨n, (d : Int), c⟩ = some (stars d ++ "C." ++ n) := by
  have e1 : ¬ ((d : Int) = 1) := by omega
  have e2 : ¬ ((d : Int) = 2) := by omega
  rcases h with rfl | rfl
  · have hm : TypeDesc.GoType ⟨"void", (d : Int), c⟩
        = (if (d : Int) = 1 then some "uintptr"
           else if (d : Int) = 2 then some "*uintptr"
           else TypeDesc.foreignRef ⟨"void", (d : Int), c⟩) := rfl
    rw [hm, if_neg e1, if_neg e2, foreignRef_natCast]
  · have hm : TypeDesc.GoType ⟨"GLvoid", (d : Int), c⟩
        = (if (d : Int) = 1 then some "uintptr"
           else if (d : Int) = 2 then some "*uintptr"
           else TypeDesc.foreignRef ⟨"GLvoid", (d : Int), c⟩) := rfl
    rw [hm, if_neg e1, if_neg e2, foreignRef_natCast]

theorem replicate_star_C_inj (d1 d2 : Nat) (l1 l2 : List Char)
    (h : List.replicate d1 '*' ++ 'C' :: l1 = List.replicate d2 '*' ++ 'C' :: l2) :
    d1 = d2 ∧ l1 = l2 := by
  induction d1 generalizing d2 with
  | zero =>
    cases d2 with
    | zero => simpa using h
    | succ k => simp [List.replicate_succ] at h
  | succ m ih =>
    cases d2 with
    | zero => simp [List.replicate_succ] at h
    | succ k =>
      simp only [List.replicate_succ, List.cons_append, List.cons.injEq, true_and] at h
      obtain ⟨hd, hl⟩ := ih k h
      exact ⟨by omega, hl⟩

/-- The foreign-reference rendering determines both the depth and the name. -/
theorem foreign_text_inj (d1 d2 : Nat) (n1 n2 : String)
    (h : stars d1 ++ "C." ++ n1 = stars d2 ++ "C." ++ n2) : n1 = n2 ∧ d1 = d2 := by
  have hd := congrArg String.data h
  simp only [String.data_append, stars, List.append_assoc] at hd
  simp only [List.cons_append, List.nil_append] at hd
  obtain ⟨e, hl⟩ := replicate_star_C_inj d1 d2 _ _ hd
  simp only [List.cons.injEq, true_and] at hl
  exact ⟨String.ext hl, e⟩

/-- C11 (as stated, refuted): for `void` at depth 1 and the variable `x`,
`ConvertCToGo` returns exactly the cast `(uintptr)(x)`. -/
theorem C11_counterexample :
    TypeDesc.ConvertCToGo ⟨"void", 1, "void *"⟩ "x"
      = some ("(uintptr)(" ++ "x" ++ ")") := by
  decide

/-- C11 (amended): for `void` or `GLvoid` at depth 1 and every variable name
`v`, `ConvertGoToC` renders the address reinterpretation `unsafe.Pointer(v)`,
which is not a cast `(T)(v)` of `v` to any type `T` (so not `(uintptr)(v)`),
and `ConvertCToGo` renders the cast to the classified Go type, `(uintptr)(v)`. -/
theorem C11_void_pointer_conversions (n : String) (h : n = "void" ∨ n = "GLvoid")
    (c v : String) :
    TypeDesc.ConvertGoToC ⟨n, 1, c⟩ v = some ("unsafe.Pointer(" ++ v ++ ")") ∧
    (∀ T : String, TypeDesc.ConvertGoToC ⟨n, 1, c⟩ v ≠ some ("(" ++ T ++ ")(" ++ v ++ ")")) ∧
    TypeDesc.ConvertCToGo ⟨n, 1, c⟩ v = some ("(uintptr)(" ++ v ++ ")") := by
  have h1 : TypeDesc.ConvertGoToC ⟨n, 1, c⟩ v = some ("unsafe.Pointer(" ++ v ++ ")") := by
    rcases h with rfl | rfl <;> rfl
  refine ⟨h1, ?_, ?_⟩
  · intro T he
    rw [h1] at he
    have hd := congrArg String.data (Option.some.inj he)
    simp at hd
  · rcases h with rfl | rfl <;> rfl

theorem C11_void_pointer_conversions_witness :
    ("GLvoid" = "void" ∨ "GLvoid" = "GLvoid") ∧
    TypeDesc.ConvertGoToC ⟨"GLvoid", 1, "GLvoid *"⟩ "ptr"
      = some ("unsafe.Pointer(" ++ "ptr" ++ ")") ∧
    (∀ T : String, TypeDesc.ConvertGoToC ⟨"GLvoid", 1, "GLvoid *"⟩ "ptr"
      ≠ some ("(" ++ T ++ ")(" ++ "ptr" ++ ")")) ∧
    TypeDesc.ConvertCToGo ⟨"GLvoid", 1, "GLvoid *"⟩ "ptr"
      = some ("(uintptr)(" ++ "ptr" ++ ")") :=
  ⟨Or.inr rfl, C11_void_pointer_conversions "GLvoid" (Or.inr rfl) "GLvoid *" "ptr"⟩

/-- C12 (the code at the failing input): for `GLboolean` at depth 1 and the
variable `x`, `GoType` is `*bool` and `ConvertGoToC` renders the generic
pointer cast, but `ConvertCToGo` still renders the comparison `x == TRUE`. -/
theorem C12_boolean_pointer_CToGo :
    TypeDesc.GoType ⟨"GLboolean", 1, "GLboolean *"⟩ = some "*bool" ∧
    TypeDesc.ConvertGoToC ⟨"GLboolean", 1, "GLboolean *"⟩ "x"
      = some ("(" ++ stars 1 ++ "C.GLboolean)(unsafe.Pointer(" ++ "x" ++ "))") ∧
    TypeDesc.ConvertCToGo ⟨"GLboolean", 1, "GLboolean *"⟩ "x" = some ("x" ++ " == TRUE") := by
  decide

/-- C13: for every fixed descriptor (of natural depth), both conversion
synthesizers are injective in the variable name: equal `ConvertGoToC` results
come from equal variable names, and likewise for `ConvertCToGo`. -/
theorem C13_conversions_injective (n : String) (d : Nat) (c v1 v2 : String) :
    (TypeDesc.ConvertGoToC ⟨n, (d : Int), c⟩ v1 = TypeDesc.ConvertGoToC ⟨n, (d : Int), c⟩ v2
      → v1 = v2) ∧
    (TypeDesc.ConvertCToGo ⟨n, (d : Int), c⟩ v1 = TypeDesc.ConvertCToGo ⟨n, (d : Int), c⟩ v2
      → v1 = v2) ∧
    (TypeDesc.ConvertGoToC ⟨n, (d : Int), c⟩ v1).isSome = true ∧
    (TypeDesc.ConvertCToGo ⟨n, (d : Int), c⟩ v1).isSome = true := by
  obtain ⟨a, b, hab⟩ := ConvertGoToC_template n d c
  obtain ⟨a2, b2, hab2⟩ := ConvertCToGo_template n d c
  refine ⟨?_, ?_, ?_, ?_⟩
  · intro h
    rw [hab v1, hab v2] at h
    exact wrap_inj a b v1 v2 (Option.some.inj h)
  · intro h
    rw [hab2 v1, hab2 v2] at h
    exact wrap_inj a2 b2 v1 v2 (Option.some.inj h)
  · rw [hab v1]
    rfl
  · rw [hab2 v1]
    rfl

theorem C13_conversions_injective_witness :
    TypeDesc.ConvertGoToC ⟨"GLint", ((1 : Nat) : Int), "GLint *"⟩ "a"
      ≠ TypeDesc.ConvertGoToC ⟨"GLint", ((1 : Nat) : Int), "GLint *"⟩ "b" ∧
    TypeDesc.ConvertCToGo ⟨"GLint", ((1 : Nat) : Int), "GLint *"⟩ "a"
      ≠ TypeDesc.ConvertCToGo ⟨"GLint", ((1 : Nat) : Int), "GLint *"⟩ "b" :=
  ⟨fun h => absurd ((C13_conversions_injective "GLint" 1 "GLint *" "a" "b").1 h) (by decide),
   fun h => absurd ((C13_conversions_injective "GLint" 1 "GLint *" "a" "b").2.1 h) (by decide)⟩

/-- C18: a void name outside the two special depths falls through to the
foreign-reference rendering: for `void` or `GLvoid` at depth 0 or at a depth
`d ≥ 3`, `GoType` returns `d` copies of `*` followed by `C.` and the name, and
`ConvertGoToC` returns the generic cast, `(C.name)(v)` at depth 0 and
`(` stars `C.name)(unsafe.Pointer(v))` at depth `d ≥ 3`. -/
theorem C18_void_other_depths (n : String) (h : n = "void" ∨ n = "GLvoid") (d : Nat)
    (hd : d = 0 ∨ 3 ≤ d) (c v : String) :
    TypeDesc.GoType ⟨n, (d : Int), c⟩ = some (stars d ++ "C." ++ n) ∧
    (d = 0 → TypeDesc.ConvertGoToC ⟨n, (d : Int), c⟩ v
      = some ("(C." ++ n ++ ")(" ++ v ++ ")")) ∧
    (3 ≤ d → TypeDesc.ConvertGoToC ⟨n, (d : Int), c⟩ v
      = some ("(" ++ stars d ++ "C." ++ n ++ ")(unsafe.Pointer(" ++ v ++ "))")) := by
  have h1 : d ≠ 1 := by omega
  have h2 : d ≠ 2 := by omega
  have hb : ¬ (n = "GLboolean" ∧ d = 0) := by
    rintro ⟨hn, -⟩
    rcases h with rfl | rfl <;> exact absurd hn (by decide)
  have hgen : TypeDesc.ConvertGoToC ⟨n, (d : Int), c⟩ v
      = TypeDesc.castGoToC ⟨n, (d : Int), c⟩ v := by
    rw [ConvertGoToC_natCast, if_neg hb, if_neg (fun hc => h1 hc.2), if_neg (fun hc => h2 hc.2)]
  refine ⟨GoType_void_other n h d h1 h2 c, ?_, ?_⟩
  · intro h0
    subst h0
    rw [hgen, castGoToC_natCast, if_neg (by decide)]
    rfl
  · intro h3
    rw [hgen, castGoToC_natCast, if_pos (by omega)]

theorem C18_void_other_depths_witness :
    ("void" = "void" ∨ "void" = "GLvoid") ∧ (3 = 0 ∨ 3 ≤ 3) ∧
    TypeDesc.GoType ⟨"void", ((3 : Nat) : Int), "void ***"⟩
      = some (stars 3 ++ "C." ++ "void") ∧
    (3 = 0 → TypeDesc.ConvertGoToC ⟨"void", ((3 : Nat) : Int), "void ***"⟩ "p"
      = some ("(C." ++ "void" ++ ")(" ++ "p" ++ ")")) ∧
    (3 ≤ 3 → TypeDesc.ConvertGoToC ⟨"void", ((3 : Nat) : Int), "void ***"⟩ "p"
      = some ("(" ++ stars 3 ++ "C." ++ "void" ++ ")(unsafe.Pointer(" ++ "p" ++ "))")) :=
  ⟨Or.inl rfl, Or.inr (by decide),
    C18_void_other_depths "void" (Or.inl rfl) 3 (Or.inr (by decide)) "void ***" "p"⟩

/-- C19: rendering an unmapped type drops no information: over descriptors
whose names are not in the classifier's table, `GoType` is injective in
(name, pointer depth). -/
theorem C19_GoType_unmapped_injective (n1 n2 : String) (h1 : n1 ∉ recognizedNames)
    (h2 : n2 ∉ recognizedNames) (d1 d2 : Nat) (c1 c2 : String)
    (h : TypeDesc.GoType ⟨n1, (d1 : Int), c1⟩ = TypeDesc.GoType ⟨n2, (d2 : Int), c2⟩) :
    n1 = n2 ∧ d1 = d2 := by
  rw [GoType_foreign n1 h1 d1 c1, GoType_foreign n2 h2 d2 c2] at h
  exact foreign_text_inj d1 d2 n1 n2 (Option.some.inj h)

theorem C19_GoType_unmapped_injective_witness :
    "GLfoo" ∉ recognizedNames ∧
    TypeDesc.GoType ⟨"GLfoo", ((2 : Nat) : Int), "GLfoo **"⟩
      = TypeDesc.GoType ⟨"GLfoo", ((2 : Nat) : Int), "const GLfoo **"⟩ ∧
    "GLfoo" = "GLfoo" ∧ 2 = 2 :=
  ⟨by decide, by decide,
    C19_GoType_unmapped_injective "GLfoo" "GLfoo" (by decide) (by decide) 2 2
      "GLfoo **" "const GLfoo **" (by decide)⟩

/-- C20: the raw declaration text is pure pass-through: two descriptors that
agree on name and pointer depth and differ only in `CDefinition` get the same
`IsVoid`, `GoType`, `ConvertGoToC` and `ConvertCToGo` results for every
variable name, while `CType` returns `CDefinition` verbatim. -/
theorem C20_CDefinition_passthrough (n : String) (d : Int) (c1 c2 v : String) :
    TypeDesc.IsVoid ⟨n, d, c1⟩ = TypeDesc.IsVoid ⟨n, d, c2⟩ ∧
    TypeDesc.GoType ⟨n, d, c1⟩ = TypeDesc.GoType ⟨n, d, c2⟩ ∧
    TypeDesc.ConvertGoToC ⟨n, d, c1⟩ v = TypeDesc.ConvertGoToC ⟨n, d, c2⟩ v ∧
    TypeDesc.ConvertCToGo ⟨n, d, c1⟩ v = TypeDesc.ConvertCToGo ⟨n, d, c2⟩ v ∧
    TypeDesc.CType ⟨n, d, c1⟩ = c1 :=
  ⟨rfl, rfl, rfl, rfl, rfl⟩

/-! ## The name normalizer -/

theorem digit_ne_X (ch : Char) (h : ch.isDigit = true) : ch ≠ 'X' := by
  rintro rfl
  exact absurd h (by decide)

theorem digit_not_upper (ch : Char) (h : ch.isDigit = true) : ch.isUpper = false := by
  simp only [Char.isDigit, Char.isUpper, Bool.and_eq_true, decide_eq_true_eq] at *
  simp only [Bool.and_eq_false_imp, decide_eq_true_eq, decide_eq_false_iff_not]
  intro h1
  have h2 := h.2
  exact absurd (show (65 : UInt32) ≤ 57 from Nat.le_trans h1 h2) (by decide)

/-- A digit right after an API prefix keeps `TrimAPIPrefix` from stripping it. -/
theorem trim_digit (p : String) (hp : p ∈ apiPrefixes.map Prod.fst) (ch : Char) (rest : List Char)
    (h : ch.isDigit = true) :
    TrimAPIPrefix (p ++ String.mk (ch :: rest)) = p ++ String.mk (ch :: rest) := by
  have hX := digit_ne_X ch h
  have hU := digit_not_upper ch h
  have hXb : ('X' == ch) = false := by
    rw [beq_eq_false_iff_ne]
    exact Ne.symm hX
  simp only [apiPrefixes, List.map_cons, List.map_nil, List.mem_cons, List.mem_singleton, List.not_mem_nil, or_false] at hp
  rcases hp with rfl | rfl | rfl | rfl | rfl | rfl | rfl | rfl <;>
    simp [TrimAPIPrefix, apiPrefixes, HasPrefix, List.find?, List.isPrefixOf, functionGuard, constantGuard, beginsUpper, beginsDigit, h, hU, hXb]

theorem trim_no_match (name : String)
    (h : ∀ p ∈ apiPrefixes.map Prod.fst, HasPrefix name p = false) :
    TrimAPIPrefix name = name := by
  have hnone : apiPrefixes.find? (fun pg => HasPrefix name pg.1) = none := by
    rw [List.find?_eq_none]
    intro pg hpg
    have := h pg.1 (List.mem_map_of_mem Prod.fst hpg)
    simp [this]
  unfold TrimAPIPrefix
  rw [hnone]

theorem trim_suffix (name : String) : (TrimAPIPrefix name).data <:+ name.data := by
  unfold TrimAPIPrefix
  split
  · exact List.suffix_refl _
  · simp only
    split
    · exact List.drop_suffix _ _
    · exact List.suffix_refl _

/-- An upper-case letter right after a function-style prefix: the prefix is stripped. -/
theorem trim_function (p : String) (hp : p ∈ ["glX", "wgl", "egl", "gl"]) (ch : Char)
    (rest : List Char) (hu : ch.isUpper = true) (hX : ¬ (p = "gl" ∧ ch = 'X')) :
    TrimAPIPrefix (p ++ String.mk (ch :: rest)) = String.mk (ch :: rest) := by
  simp only [List.mem_cons, List.mem_singleton, List.not_mem_nil, or_false] at hp
  rcases hp with rfl | rfl | rfl | rfl
  · simp [TrimAPIPrefix, apiPrefixes, HasPrefix, List.find?, List.isPrefixOf, functionGuard,
      beginsUpper, hu]
  · simp [TrimAPIPrefix, apiPrefixes, HasPrefix, List.find?, List.isPrefixOf, functionGuard,
      beginsUpper, hu]
  · simp [TrimAPIPrefix, apiPrefixes, HasPrefix, List.find?, List.isPrefixOf, functionGuard,
      beginsUpper, hu]
  · have hXb : ('X' == ch) = false := by
      rw [beq_eq_false_iff_ne]
      intro h
      exact hX ⟨rfl, h.symm⟩
    simp [TrimAPIPrefix, apiPrefixes, HasPrefix, List.find?, List.isPrefixOf, functionGuard,
      beginsUpper, hu, hXb]

/-- No digit right after a constant-style prefix: the prefix is stripped. -/
theorem trim_constant (p : String) (hp : p ∈ ["GLX_", "WGL_", "EGL_", "GL_"]) (rest : String)
    (hd : beginsDigit rest = false) : TrimAPIPrefix (p ++ rest) = rest := by
  obtain ⟨l⟩ := rest
  simp only [List.mem_cons, List.mem_singleton, List.not_mem_nil, or_false] at hp
  rcases hp with rfl | rfl | rfl | rfl <;>
    simp [TrimAPIPrefix, apiPrefixes, HasPrefix, List.find?, List.isPrefixOf, constantGuard, hd]

/-- C14: `TrimAPIPrefix` strips one leading API prefix and returns the rest:
a function-style prefix (`gl`, `wgl`, `egl`, `glX`) is stripped before every
rest that begins with an upper-case letter (`gl` before `X` is the prefix
`glX`, which wins) and a constant-style prefix (`GL_`, `WGL_`, `EGL_`, `GLX_`)
before every rest that does not begin with a digit, so each prefix is stripped
before `Test` resp. `TEST`; when the character right after the prefix is a
digit (`gl0Test`, `GL_0TEST`), or when no prefix matches, the input is
returned unchanged; in every case the result is a suffix of the input. -/
theorem C14_TrimAPIPrefix :
    (∀ p ∈ ["glX", "wgl", "egl", "gl"], ∀ (ch : Char) (rest : List Char),
      ch.isUpper = true → ¬ (p = "gl" ∧ ch = 'X') →
      TrimAPIPrefix (p ++ String.mk (ch :: rest)) = String.mk (ch :: rest)) ∧
    (∀ p ∈ ["GLX_", "WGL_", "EGL_", "GL_"], ∀ rest : String, beginsDigit rest = false →
      TrimAPIPrefix (p ++ rest) = rest) ∧
    (∀ p ∈ ["gl", "wgl", "egl", "glX"], TrimAPIPrefix (p ++ "Test") = "Test") ∧
    (∀ p ∈ ["GL_", "WGL_", "EGL_", "GLX_"], TrimAPIPrefix (p ++ "TEST") = "TEST") ∧
    TrimAPIPrefix "gl0Test" = "gl0Test" ∧
    TrimAPIPrefix "GL_0TEST" = "GL_0TEST" ∧
    (∀ p ∈ apiPrefixes.map Prod.fst, ∀ (ch : Char) (rest : List Char), ch.isDigit = true →
      TrimAPIPrefix (p ++ String.mk (ch :: rest)) = p ++ String.mk (ch :: rest)) ∧
    (∀ name : String, (∀ p ∈ apiPrefixes.map Prod.fst, HasPrefix name p = false) →
      TrimAPIPrefix name = name) ∧
    (∀ name : String, (TrimAPIPrefix name).data <:+ name.data) :=
  ⟨trim_function, trim_constant, by decide, by decide, by decide, by decide,
    fun p hp ch rest h => trim_digit p hp ch rest h, trim_no_match, trim_suffix⟩

theorem C14_TrimAPIPrefix_witness :
    TrimAPIPrefix ("gl" ++ String.mk ('C' :: ['l', 'e', 'a', 'r'])) = "Clear" ∧
    TrimAPIPrefix ("GL_" ++ "TRUE") = "TRUE" :=
  ⟨C14_TrimAPIPrefix.1 "gl" (by decide) 'C' ['l', 'e', 'a', 'r'] (by decide) (by decide),
    C14_TrimAPIPrefix.2.1 "GL_" (by decide) "TRUE" (by decide)⟩

/-! ## The blank-line-stripping writer -/

theorem keptLines_terminated (buf p : List UInt8) (hb : ∀ x ∈ buf, x ≠ 10) :
    keptLines (buf ++ 10 :: p) = (if buf = [] then [] else buf ++ [10]) ++ keptLines p := by
  unfold keptLines terminatedLines List.splitOn
  have hsplit : (buf ++ 10 :: p).splitOnP (fun x => x == 10)
      = buf :: p.splitOnP (fun x => x == 10) :=
    List.splitOnP_first (fun x => x == 10) buf (fun x hx => by simpa using hb x hx) 10
      (by simp) p
  rw [hsplit, List.dropLast_cons_of_ne_nil (List.splitOnP_ne_nil _ p)]
  by_cases he : buf = []
  · simp [he]
  · simp [he]

theorem foldl_writeByte_output (p : List UInt8) (out buf : List UInt8)
    (hb : ∀ x ∈ buf, x ≠ 10) :
    (p.foldl BlankLineStrippingWriter.writeByte ⟨out, buf⟩).output
      = out ++ keptLines (buf ++ p) := by
  induction p generalizing out buf with
  | nil =>
    have hs : keptLines buf = [] := by
      unfold keptLines terminatedLines List.splitOn
      have h1 : buf.splitOnP (fun x => x == 10) = [buf] :=
        List.splitOnP_eq_single (fun x => x == 10) buf (fun x hx => by simpa using hb x hx)
      rw [h1]
      rfl
    simp [hs]
  | cons b rest ih =>
    rw [List.foldl_cons]
    by_cases h10 : b = 10
    · subst h10
      rw [keptLines_terminated buf rest hb]
      by_cases he : buf = []
      · subst he
        have hstep : BlankLineStrippingWriter.writeByte ⟨out, []⟩ 10 = ⟨out, []⟩ := by
          simp [BlankLineStrippingWriter.writeByte]
        rw [hstep, ih out [] (by simp)]
        simp
      · have hstep : BlankLineStrippingWriter.writeByte ⟨out, buf⟩ 10
            = ⟨out ++ buf ++ [10], []⟩ := by
          simp [BlankLineStrippingWriter.writeByte, he]
        rw [hstep, ih (out ++ buf ++ [10]) [] (by simp)]
        simp [he]
    · have hstep : BlankLineStrippingWriter.writeByte ⟨out, buf⟩ b = ⟨out, buf ++ [b]⟩ := by
        simp [BlankLineStrippingWriter.writeByte, h10]
      rw [hstep, ih out (buf ++ [b]) (by
        intro x hx
        rcases List.mem_append.mp hx with h | h
        · exact hb x h
        · rw [List.mem_singleton.mp h]
          exact h10)]
      simp

theorem chain_of_no_newline (l : List UInt8) (h : ∀ x ∈ l, x ≠ 10) : NoDoubleNewline l := by
  unfold NoDoubleNewline
  induction l with
  | nil => exact List.chain'_nil
  | cons a t ih =>
    rw [List.chain'_cons']
    refine ⟨?_, ih (fun x hx => h x (List.mem_cons_of_mem a hx))⟩
    intro y _ hc
    exact h a (List.mem_cons_self a t) hc.1

theorem noDouble_append_line (o buf : List UInt8) (ho : NoDoubleNewline o)
    (hne : buf ≠ []) (hb : ∀ x ∈ buf, x ≠ 10) : NoDoubleNewline (o ++ buf ++ [10]) := by
  unfold NoDoubleNewline at *
  rw [List.append_assoc, List.chain'_append]
  refine ⟨ho, ?_, ?_⟩
  · rw [List.chain'_append]
    refine ⟨chain_of_no_newline buf hb, List.chain'_singleton 10, ?_⟩
    intro x hx y _ hc
    exact hb x (List.mem_of_mem_getLast? hx) hc.1
  · intro x _ y hy hc
    cases buf with
    | nil => exact hne rfl
    | cons a t =>
      simp only [List.cons_append, List.head?_cons, Option.mem_def, Option.some.injEq] at hy
      rw [← hy] at hc
      exact hb a (List.mem_cons_self a t) hc.2

theorem inv_new : (NewBlankLineStrippingWriter []).Inv :=
  ⟨by simp [NewBlankLineStrippingWriter], by simp [NewBlankLineStrippingWriter],
    List.chain'_nil, Or.inl rfl⟩

theorem inv_writeByte (w : BlankLineStrippingWriter) (b : UInt8) (h : w.Inv) :
    (w.writeByte b).Inv := by
  unfold BlankLineStrippingWriter.writeByte
  by_cases h10 : b = 10
  · rw [if_pos h10]
    by_cases he : w.buf = []
    · rw [if_pos he]
      exact ⟨by simp, h.head_ok, h.no_double, h.tail_ok⟩
    · rw [if_neg he]
      refine ⟨by simp, ?_, noDouble_append_line _ _ h.no_double he h.buf_clean, Or.inr ?_⟩
      · show (w.output ++ w.buf ++ [10]).head? ≠ some (10 : UInt8)
        cases ho : w.output with
        | nil =>
          cases hb : w.buf with
          | nil => exact absurd hb he
          | cons a t =>
            have ha : a ≠ 10 := h.buf_clean a (by rw [hb]; exact List.mem_cons_self a t)
            simpa using ha
        | cons a t =>
          have hh := h.head_ok
          rw [ho] at hh
          simpa using hh
      · show EndsWithOneNewline (w.output ++ w.buf ++ [10])
        rcases List.eq_nil_or_concat w.buf with hb | ⟨t, y, hb⟩
        · exact absurd hb he
        · refine ⟨w.output ++ t, y, ?_, h.buf_clean y (by rw [hb]; simp)⟩
          rw [hb]
          simp
  · rw [if_neg h10]
    refine ⟨?_, h.head_ok, h.no_double, h.tail_ok⟩
    intro x hx
    rcases List.mem_append.mp hx with hx | hx
    · exact h.buf_clean x hx
    · rw [List.mem_singleton.mp hx]
      exact h10

theorem inv_foldl (p : List UInt8) (w : BlankLineStrippingWriter) (h : w.Inv) :
    (p.foldl BlankLineStrippingWriter.writeByte w).Inv := by
  induction p generalizing w with
  | nil => exact h
  | cons b rest ih => exact ih _ (inv_writeByte w b h)

theorem foldl_no_newline_output (t : List UInt8) (w : BlankLineStrippingWriter)
    (ht : ∀ y ∈ t, y ≠ 10) :
    (t.foldl BlankLineStrippingWriter.writeByte w).output = w.output := by
  induction t generalizing w with
  | nil => rfl
  | cons b rest ih =>
    rw [List.foldl_cons, ih _ (fun y hy => ht y (List.mem_cons_of_mem b hy))]
    simp [BlankLineStrippingWriter.writeByte, ht b (List.mem_cons_self b rest)]

theorem output_ne_nil_writeByte (w : BlankLineStrippingWriter) (b : UInt8)
    (h : w.output ≠ []) : (w.writeByte b).output ≠ [] := by
  unfold BlankLineStrippingWriter.writeByte
  split
  · split
    · exact h
    · simp
  · exact h

theorem output_ne_nil_foldl (p : List UInt8) (w : BlankLineStrippingWriter)
    (h : w.output ≠ []) : (p.foldl BlankLineStrippingWriter.writeByte w).output ≠ [] := by
  induction p generalizing w with
  | nil => exact h
  | cons b rest ih => exact ih _ (output_ne_nil_writeByte w b h)

theorem pending_writeByte (w : BlankLineStrippingWriter) (b : UInt8)
    (h : w.buf ≠ [] ∨ w.output ≠ []) :
    (w.writeByte b).buf ≠ [] ∨ (w.writeByte b).output ≠ [] := by
  unfold BlankLineStrippingWriter.writeByte
  split
  · split
    · rename_i he
      rcases h with h | h
      · exact absurd he h
      · exact Or.inr h
    · exact Or.inr (by simp)
  · exact Or.inl (by simp)

theorem pending_foldl (p : List UInt8) (w : BlankLineStrippingWriter)
    (h : w.buf ≠ [] ∨ w.output ≠ []) :
    (p.foldl BlankLineStrippingWriter.writeByte w).buf ≠ [] ∨
      (p.foldl BlankLineStrippingWriter.writeByte w).output ≠ [] := by
  induction p generalizing w with
  | nil => exact h
  | cons b rest ih => exact ih _ (pending_writeByte w b h)

/-- Once a byte other than a newline has been followed by a newline, the sink is not empty. -/
theorem output_ne_nil_of_terminated (w : BlankLineStrippingWriter) (a b c : List UInt8)
    (x : UInt8) (hx : x ≠ 10) :
    ((a ++ x :: (b ++ 10 :: c)).foldl BlankLineStrippingWriter.writeByte w).output ≠ [] := by
  rw [List.foldl_append, List.foldl_cons, List.foldl_append, List.foldl_cons]
  apply output_ne_nil_foldl
  have h1 : ((a.foldl BlankLineStrippingWriter.writeByte w).writeByte x).buf ≠ [] := by
    simp [BlankLineStrippingWriter.writeByte, hx]
  have h2 := pending_foldl b _ (Or.inl h1)
  generalize (b.foldl BlankLineStrippingWriter.writeByte
    ((a.foldl BlankLineStrippingWriter.writeByte w).writeByte x)) = w2 at h2
  unfold BlankLineStrippingWriter.writeByte
  rw [if_pos rfl]
  split
  · rename_i he
    rcases h2 with h | h
    · exact absurd he h
    · exact h
  · simp

theorem keptLines_all_newlines (p : List UInt8) (h : ∀ b ∈ p, b = 10) : keptLines p = [] := by
  induction p with
  | nil => rfl
  | cons b rest ih =>
    have hb : b = 10 := h b (List.mem_cons_self b rest)
    subst hb
    have hk := keptLines_terminated [] rest (by simp)
    simp only [List.nil_append, if_true] at hk
    rw [hk]
    exact ih (fun y hy => h y (List.mem_cons_of_mem _ hy))


/-- Scanning newline-free bytes only extends the pending line. -/
theorem foldl_no_newline (t : List UInt8) (o acc : List UInt8) (ht : ∀ y ∈ t, y ≠ 10) :
    t.foldl BlankLineStrippingWriter.writeByte ⟨o, acc⟩ = ⟨o, acc ++ t⟩ := by
  induction t generalizing acc with
  | nil => simp
  | cons b rest ih =>
    have hb : b ≠ 10 := ht b (List.mem_cons_self b rest)
    have hstep : BlankLineStrippingWriter.writeByte ⟨o, acc⟩ b = ⟨o, acc ++ [b]⟩ := by
      simp [BlankLineStrippingWriter.writeByte, hb]
    rw [List.foldl_cons, hstep, ih (acc ++ [b]) (fun y hy => ht y (List.mem_cons_of_mem b hy))]
    simp

/-- When the carried bytes hold no newline, scanning them again forwards
nothing, so a `Write` continues the scan where the previous call stopped. -/
theorem Write_eq_foldl (w : BlankLineStrippingWriter) (hw : ∀ x ∈ w.buf, x ≠ 10)
    (p : List UInt8) : (w.Write p).1 = p.foldl BlankLineStrippingWriter.writeByte w := by
  unfold BlankLineStrippingWriter.Write
  simp only
  rw [List.foldl_append, foldl_no_newline w.buf w.output [] hw]
  simp

theorem Write_new (p : List UInt8) :
    ((NewBlankLineStrippingWriter []).Write p).1
      = p.foldl BlankLineStrippingWriter.writeByte (NewBlankLineStrippingWriter []) :=
  Write_eq_foldl _ inv_new.buf_clean p

theorem writeChunks_eq_foldl (chunks : List (List UInt8)) (w : BlankLineStrippingWriter)
    (hw : w.Inv) :
    writeChunks w chunks = chunks.flatten.foldl BlankLineStrippingWriter.writeByte w := by
  induction chunks generalizing w with
  | nil => rfl
  | cons c cs ih =>
    have hstep : writeChunks w (c :: cs) = writeChunks (w.Write c).1 cs := rfl
    have hc := Write_eq_foldl w hw.buf_clean c
    rw [hstep, hc, ih _ (inv_foldl c w hw), List.flatten_cons, List.foldl_append]

/-- C15: for every byte sequence written in one `Write` call to a fresh
writer, the sink receives exactly the input's non-empty newline-terminated
lines, in order, each followed by a single newline; the output never starts
with a newline nor contains two consecutive newlines; input made only of
newlines gives empty output; `\nä\n\n` gives `ä\n`, and `ä` and `\n\n\nä`
give empty output. -/
theorem C15_single_write (p : List UInt8) :
    ((NewBlankLineStrippingWriter []).Write p).1.output = keptLines p ∧
    ((NewBlankLineStrippingWriter []).Write p).1.output.head? ≠ some 10 ∧
    NoDoubleNewline ((NewBlankLineStrippingWriter []).Write p).1.output ∧
    ((∀ b ∈ p, b = 10) → ((NewBlankLineStrippingWriter []).Write p).1.output = []) ∧
    ((NewBlankLineStrippingWriter []).Write [10, 0xC3, 0xA4, 10, 10]).1.output
      = [0xC3, 0xA4, 10] ∧
    ((NewBlankLineStrippingWriter []).Write [0xC3, 0xA4]).1.output = [] ∧
    ((NewBlankLineStrippingWriter []).Write [10, 10, 10, 0xC3, 0xA4]).1.output = [] := by
  have hout : ((NewBlankLineStrippingWriter []).Write p).1.output = keptLines p := by
    have h := foldl_writeByte_output p [] [] (by simp)
    rw [Write_new]
    simpa [NewBlankLineStrippingWriter] using h
  have hinv := inv_foldl p _ inv_new
  rw [← Write_new] at hinv
  refine ⟨hout, hinv.head_ok, hinv.no_double, ?_, by decide, by decide, by decide⟩
  intro h
  rw [hout]
  exact keptLines_all_newlines p h

/-- C16: the writer is chunk-boundary-invariant: writing the chunks of any
splitting of a byte sequence, in order, to a fresh writer leaves the sink with
the same bytes as writing the whole sequence in a single `Write` call, namely
the non-empty newline-terminated lines of the whole sequence; in particular
for the splitting of `s` into 1-byte chunks, and for `ä\n\na\n` written as
the chunks `0xC3`, `0xA4 \n \n`, empty, `a`, `\n`. -/
theorem C16_chunk_invariance (chunks : List (List UInt8)) (s : List UInt8) :
    (writeChunks (NewBlankLineStrippingWriter []) chunks).output
      = ((NewBlankLineStrippingWriter []).Write chunks.flatten).1.output ∧
    (writeChunks (NewBlankLineStrippingWriter []) chunks).output = keptLines chunks.flatten ∧
    (writeChunks (NewBlankLineStrippingWriter []) (s.map (fun b => [b]))).output
      = ((NewBlankLineStrippingWriter []).Write s).1.output ∧
    (writeChunks (NewBlankLineStrippingWriter []) [[0xC3], [0xA4, 10, 10], [], [97], [10]]).output
      = [0xC3, 0xA4, 10, 97, 10] := by
  have hgen : ∀ cs : List (List UInt8),
      writeChunks (NewBlankLineStrippingWriter []) cs
        = ((NewBlankLineStrippingWriter []).Write cs.flatten).1 := by
    intro cs
    rw [writeChunks_eq_foldl cs _ inv_new, Write_new]
  have hkept : ∀ q : List UInt8,
      ((NewBlankLineStrippingWriter []).Write q).1.output = keptLines q := by
    intro q
    have h := foldl_writeByte_output q [] [] (by simp)
    rw [Write_new]
    simpa [NewBlankLineStrippingWriter] using h
  have hflat : (s.map (fun b => [b])).flatten = s := by
    induction s with
    | nil => rfl
    | cons b rest ih => simp [ih]
  refine ⟨by rw [hgen], by rw [hgen, hkept], ?_, by decide⟩
  rw [hgen, hflat]

/-- C17 (as stated, refuted): the inputs `ä` and `\n\n\nä`, whose content is
not followed by a line terminator, leave the sink empty: the output neither
contains the content nor ends with a newline. -/
theorem C17_counterexample :
    ((NewBlankLineStrippingWriter []).Write [0xC3, 0xA4]).1.output = [] ∧
    ((NewBlankLineStrippingWriter []).Write [10, 10, 10, 0xC3, 0xA4]).1.output = [] := by
  decide

/-- C17 (amended): for every input in which some byte other than a newline is
later followed by a newline, the output is not empty and ends with exactly one
newline; content that is not followed by a line terminator is withheld:
appending newline-free bytes to an input does not change the output. -/
theorem C17_trailing_newline (p : List UInt8) :
    ((∃ a x b c, p = a ++ x :: (b ++ 10 :: c) ∧ x ≠ 10) →
      EndsWithOneNewline ((NewBlankLineStrippingWriter []).Write p).1.output) ∧
    (∀ t, (∀ y ∈ t, y ≠ 10) →
      ((NewBlankLineStrippingWriter []).Write (p ++ t)).1.output
        = ((NewBlankLineStrippingWriter []).Write p).1.output) := by
  constructor
  · rintro ⟨a, x, b, c, rfl, hx⟩
    have hinv := inv_foldl (a ++ x :: (b ++ 10 :: c)) _ inv_new
    rw [Write_new]
    rcases hinv.tail_ok with h | h
    · exact absurd h (output_ne_nil_of_terminated _ a b c x hx)
    · exact h
  · intro t ht
    rw [Write_new, Write_new, List.foldl_append, foldl_no_newline_output t _ ht]

theorem C17_trailing_newline_witness :
    EndsWithOneNewline
      ((NewBlankLineStrippingWriter []).Write [97, 10, 10, 10, 98, 10]).1.output ∧
    ((NewBlankLineStrippingWriter []).Write ([97, 10] ++ [0xC3, 0xA4])).1.output
      = ((NewBlankLineStrippingWriter []).Write [97, 10]).1.output :=
  ⟨(C17_trailing_newline [97, 10, 10, 10, 98, 10]).1
      ⟨[], 97, [], [10, 10, 98, 10], by decide, by decide⟩,
    (C17_trailing_newline [97, 10]).2 [0xC3, 0xA4] (by decide)⟩

end Glow
